import Mathlib

/-!
# temporal-datarouting: the packet delivery workflow and its callback registry

A shallow embedding of `activity_workflow.go`, `common.go`,
`transmit_service.go` and the handler of `routing_service.go`.

* Go `int` values are `Int`; they are only compared, never added, so no
  wrap-around is involved.
* A Go function returning `(T, error)` through the workflow engine is an
  `Except String T`: the engine hands the workflow either the error or the value.
* The two activities run outside the workflow, so `DataRoutingWorkflow` takes
  their behaviour as a parameter (`Activities`): the answer of the `i`-th call of
  an activity (counting from `0`) on a given input.
* `DataRoutingWorkflow` returns, next to the Go results `(DataRoutingOut, error)`,
  the list of activity calls it made, in order.
-/

namespace DataRouting

/-! ## common.go -/

/-- Package variable `StatusNoRoute`. -/
def StatusNoRoute : String := "STATUS_NO_ROUTE"

/-- Package variable `StatusDelivered`. -/
def StatusDelivered : String := "STATUS_DELIVERED"

/-- Package variable `NetworkError` (the message of the error value). -/
def NetworkError : String := "IO Error: network disconnect"

/-- Package variable `PossibleRouteProviders`, as initialised. -/
def PossibleRouteProviders : List String :=
  ["RouteA", "RouteB", "RouteC", "RouteD", "RouteE"]

/-- Package variable `TransmitPacketMaxAttempts`, as initialised. -/
def TransmitPacketMaxAttempts : Int := 4

/-- Package variable `GetRouteAttempsCount`, as initialised. -/
def GetRouteAttempsCount : Int := 3

/-- Go struct `Packet`; the defaults are the Go zero values. -/
structure Packet where
  ID : String := ""
  Source : String := ""
  Destination : String := ""
  Contents : List UInt8 := []
  FailedRouteProviders : List String := []
  CurrentRouteProvider : String := ""
  Status : String := ""
deriving DecidableEq, Repr

/-- Go struct `DataRoutingIn`. -/
structure DataRoutingIn where
  TransmitPacketMaxAttempts : Int := 0
  GetRouteMaxAttempts : Int := 0
  Packet : Packet := {}
deriving DecidableEq, Repr

/-- Go struct `DataRoutingOut`. -/
structure DataRoutingOut where
  Packet : Packet := {}
deriving DecidableEq, Repr

/-- Go struct `GetRouteIn`. -/
structure GetRouteIn where
  Packet : Packet := {}
deriving DecidableEq, Repr

/-- Go struct `GetRouteOut`. -/
structure GetRouteOut where
  Empty : Bool := false
  Route : String := ""
deriving DecidableEq, Repr

/-- Go struct `TransmitIn`. -/
structure TransmitIn where
  Packet : Packet := {}
deriving DecidableEq, Repr

/-- Go struct `TransmitOut`. -/
structure TransmitOut where
  Delivered : Bool := false
deriving DecidableEq, Repr

/-- First loop of `GetRoute`: the map `t` with `t[elem] = true` for every element
of `tried`. A Go `map[string]bool` read at a missing key gives `false`. -/
def triedMap (tried : List String) : String → Bool :=
  tried.foldl (fun t elem => Function.update t elem true) (fun _ => false)

/-- Second loop of `GetRoute` and the return that follows it: the first route
with `!t[route]`, or the empty answer. -/
def scanRoutes (t : String → Bool) : List String → GetRouteOut
  | [] => { Empty := true, Route := "" }
  | route :: rest =>
    if !t route then { Empty := false, Route := route } else scanRoutes t rest

/-- Go `GetRoute`. `roll` is the value of `rand.Intn(100)`; the package variables
`GetRouteErrChance` and `PossibleRouteProviders` are parameters. -/
def GetRoute (roll GetRouteErrChance : Int) (PossibleRouteProviders tried : List String) :
    Except String GetRouteOut :=
  if roll < GetRouteErrChance then .error NetworkError
  else .ok (scanRoutes (triedMap tried) PossibleRouteProviders)

/-! ## activity_workflow.go -/

/-- Go `GetRouteActivity`, one execution of it (before the engine's retries). -/
def GetRouteActivity (roll GetRouteErrChance : Int) (PossibleRouteProviders : List String)
    (arg : GetRouteIn) : Except String GetRouteOut :=
  let packet := arg.Packet
  match GetRoute roll GetRouteErrChance PossibleRouteProviders packet.FailedRouteProviders with
  | .error err => .error err
  | .ok r => .ok r

/-- What `workflow.ExecuteActivity(...).Get` hands to the workflow: for the
`i`-th call of an activity (from `0`) on a given input, an error or a value. -/
structure Activities where
  GetRouteActivity : Nat → GetRouteIn → Except String GetRouteOut
  TransmitActivity : Nat → TransmitIn → Except String TransmitOut

/-- One activity call of a run: the input and what `Get` returned. -/
inductive Event where
  | getRoute (arg : GetRouteIn) (res : Except String GetRouteOut)
  | transmit (arg : TransmitIn) (res : Except String TransmitOut)

/-- Outcome of one pass through the body of the `for` loop. -/
inductive Step where
  | done (out : DataRoutingOut) (err : Option String) (evs : List Event)
  | next (packet : Packet) (evs : List Event)

/-- The error built by `fmt.Errorf` when `GetRouteActivity` fails. -/
def gaveUp (inp : DataRoutingIn) : String :=
  "Gave up on GetRouteActivity after " ++ toString inp.GetRouteMaxAttempts ++ " tries"

/-- The variable `transmitOut` after `Get(ctx, &transmitOut)`: it is declared
with its zero value and `Get` writes it only when it returns no error. -/
def transmitOutOf (res : Except String TransmitOut) : TransmitOut :=
  match res with
  | .ok out => out
  | .error _ => {}

/-- Body of the `for` loop of `DataRoutingWorkflow`; `g` and `t` count the calls
of `GetRouteActivity` and `TransmitActivity` made so far. -/
def loopBody (act : Activities) (inp : DataRoutingIn) (g t : Nat) (packet : Packet) : Step :=
  let res := act.GetRouteActivity g { Packet := packet }
  let lookup := Event.getRoute { Packet := packet } res
  match res with
  | .error _ => .done {} (some (gaveUp inp)) [lookup]
  | .ok getRouteOut =>
    if getRouteOut.Empty then
      let packet := { packet with Status := StatusNoRoute }
      .done { Packet := packet } none [lookup]
    else
      let packet := { packet with CurrentRouteProvider := getRouteOut.Route }
      let tres := act.TransmitActivity t { Packet := packet }
      let transmitOut := transmitOutOf tres
      let evs := [lookup, Event.transmit { Packet := packet } tres]
      if !transmitOut.Delivered then
        .next { packet with
                FailedRouteProviders := packet.FailedRouteProviders ++ [packet.CurrentRouteProvider],
                CurrentRouteProvider := "" } evs
      else
        .next { packet with Status := StatusDelivered } evs

/-- Guard of the `for` loop. -/
def loopGuard (inp : DataRoutingIn) (packet : Packet) : Prop :=
  packet.Status ≠ StatusDelivered ∧
    (packet.FailedRouteProviders.length : Int) < inp.TransmitPacketMaxAttempts

instance (inp : DataRoutingIn) (packet : Packet) : Decidable (loopGuard inp packet) := by
  unfold loopGuard; infer_instance

/-- Number of passes the loop can still make: the variant of the `for` loop. -/
def loopVariant (inp : DataRoutingIn) (packet : Packet) : Nat :=
  if packet.Status = StatusDelivered then 0
  else (inp.TransmitPacketMaxAttempts - (packet.FailedRouteProviders.length : Int)).toNat + 1

/-- Result of a run: the Go results `(DataRoutingOut, error)` and the activity
calls made, in order. -/
structure Run where
  out : DataRoutingOut
  err : Option String
  trace : List Event

/-- The `for` loop of `DataRoutingWorkflow` and the `return` after it. -/
def workflowLoop (act : Activities) (inp : DataRoutingIn) (g t : Nat) (packet : Packet) : Run :=
  if hg : loopGuard inp packet then
    match hb : loopBody act inp g t packet with
    | .done out err evs => ⟨out, err, evs⟩
    | .next packet2 evs =>
      let rest := workflowLoop act inp (g + 1) (t + 1) packet2
      ⟨rest.out, rest.err, evs ++ rest.trace⟩
  else ⟨{ Packet := packet }, none, []⟩
termination_by loopVariant inp packet
decreasing_by
  obtain ⟨hs, hl⟩ := hg
  unfold loopBody at hb
  simp only at hb
  split at hb
  · exact absurd hb (by simp)
  · split at hb
    · exact absurd hb (by simp)
    · split at hb
      · injection hb with hp _
        subst hp
        simp only [loopVariant, hs, if_false, List.length_append, List.length_singleton]
        push_cast
        omega
      · injection hb with hp _
        subst hp
        simp [loopVariant, hs]

/-- Go `DataRoutingWorkflow`. -/
def DataRoutingWorkflow (act : Activities) (inp : DataRoutingIn) : Run :=
  let packet := inp.Packet
  workflowLoop act inp 0 0 packet

/-! ## transmit_service.go

A `time.Time` is an instant, an `Int` (nanoseconds). The registry
`map[time.Time]string` is the list of its entries in the order in which a
`range` loop visits them; that order is not specified by Go, so nothing below
depends on it. `base64.RawURLEncoding.DecodeString` and the client method
`CompleteActivity` are parameters; logging is left out. -/

/-- Go struct `TransmitService`: the field `callbacks` (the fields `c` and
`done` carry no data of the registry). -/
structure TransmitService where
  callbacks : List (Int × String)

/-- One `CompleteActivity` call of a scan: the entry `(due, token)` it was made
for, the arguments `tokenBytes` and `result`, and the error it returned. -/
structure Completion where
  due : Int
  token : String
  taskToken : List UInt8
  result : TransmitOut
  err : Option String

/-- Go `delete(m, t)`. -/
def mapDelete (m : List (Int × String)) (t : Int) : List (Int × String) :=
  m.filter (fun e => decide (e.1 ≠ t))

/-- First loop of `process`, over the entries still to visit. `clock i` is the
value of `time.Now()` in the `i`-th pass of the loop; `CompleteActivity c` is the
behaviour of the `c`-th call of the client (from `0`). Returns the calls made
and the slice `toDelete`. -/
def processScan (decode : String → List UInt8)
    (CompleteActivity : Nat → List UInt8 → TransmitOut → Option String)
    (clock : Nat → Int) : Nat → Nat → List (Int × String) → List Completion × List Int
  | _, _, [] => ([], [])
  | i, c, (t, token) :: rest =>
    if t < clock i then
      let tokenBytes := decode token
      let err := CompleteActivity c tokenBytes { Delivered := true }
      let r := processScan decode CompleteActivity clock (i + 1) (c + 1) rest
      (⟨t, token, tokenBytes, { Delivered := true }, err⟩ :: r.1, t :: r.2)
    else processScan decode CompleteActivity clock (i + 1) c rest

/-- Go `TransmitService.process`: the service after the scan and the
`CompleteActivity` calls made, in order. -/
def TransmitService.process (decode : String → List UInt8)
    (CompleteActivity : Nat → List UInt8 → TransmitOut → Option String)
    (clock : Nat → Int) (r : TransmitService) : TransmitService × List Completion :=
  let scan := processScan decode CompleteActivity clock 0 0 r.callbacks
  let toDelete := scan.2
  ({ callbacks := toDelete.foldl mapDelete r.callbacks }, scan.1)

/-- Package variable `ParamTaskToken`. -/
def ParamTaskToken : String := "task_token"

/-- Package variable `RoutingServiceCallbackChance`, as initialised. -/
def RoutingServiceCallbackChance : Int := 90

/-- Package variable `RoutingServiceTimeoutSecs`, as initialised. -/
def RoutingServiceTimeoutSecs : Int := 15

/-- Go `http.StatusOK`. -/
def StatusOK : Int := 200

/-- Go `http.StatusBadRequest`. -/
def StatusBadRequest : Int := 400

/-- Go `time.Second`, in nanoseconds. -/
def Second : Int := 1000000000

/-- What a handler reads of an `*http.Request`: the result of `ParseForm`, an
error when the form cannot be parsed, else the form as its `Form.Get` (the first
value of a key, `""` when the key is absent). -/
structure Request where
  ParseForm : Except String (String → String)

/-- Go `m[t] = token`: the entry of key `t`, if there is one, is replaced, so
the map keeps one token per key. -/
def mapSet (m : List (Int × String)) (t : Int) (token : String) : List (Int × String) :=
  mapDelete m t ++ [(t, token)]

/-- Go `TransmitService.ServeHTTP`: the service after the request and the
status passed to `WriteHeader`. `callbackRoll` and `delayRoll` are the values of
`rand.Intn(100)` and `rand.Intn(TransmitServiceTimeoutSecs)`, `now` is
`time.Now()`; the package variable `TransmitServiceCallbackChance` is a
parameter. -/
def TransmitService.ServeHTTP (TransmitServiceCallbackChance : Int)
    (callbackRoll delayRoll now : Int) (request : Request) (r : TransmitService) :
    TransmitService × Int :=
  if callbackRoll ≥ TransmitServiceCallbackChance then (r, StatusOK)
  else
    let delay := now + delayRoll * Second
    match request.ParseForm with
    | .error _ => (r, StatusBadRequest)
    | .ok form =>
      let token := form ParamTaskToken
      ({ callbacks := mapSet r.callbacks delay token }, StatusOK)

/-! ## routing_service.go -/

/-- Go struct `RoutingService`: the field `callbacks`. -/
structure RoutingService where
  callbacks : List (Int × String)

/-- Go `RoutingService.ServeHTTP`; `delayRoll` is the value of
`rand.Intn(RoutingServiceTimeoutSecs)`. -/
def RoutingService.ServeHTTP (callbackRoll delayRoll now : Int) (request : Request)
    (r : RoutingService) : RoutingService × Int :=
  if callbackRoll ≥ RoutingServiceCallbackChance then (r, StatusOK)
  else
    let delay := now + delayRoll * Second
    match request.ParseForm with
    | .error _ => (r, StatusBadRequest)
    | .ok form =>
      let token := form ParamTaskToken
      ({ callbacks := mapSet r.callbacks delay token }, StatusOK)

/-! ## Vocabulary and sample requests for the registry -/

/-- The tokens pending in a registry. -/
def pendingTokens (m : List (Int × String)) : List String :=
  m.map Prod.snd

/-- A request whose form holds the one field `task_token`. -/
def tokenRequest (token : String) : Request where
  ParseForm := .ok (fun key => if key = ParamTaskToken then token else "")

/-- A request whose form cannot be parsed. -/
def badRequest : Request where
  ParseForm := .error "invalid URL escape"

/-- Callback roll that honours a request when the chance is `90`. -/
def honouredRoll : Int := 0

/-- An empty registry, then two honoured registrations: `tokenA` at second `1`
with a delay roll of `4`, `tokenB` at second `2` with a delay roll of `3`. Both
are due at second `5`. -/
def twoRegistrations : TransmitService :=
  (TransmitService.ServeHTTP 90 honouredRoll 3 (2 * Second) (tokenRequest "tokenB")
    (TransmitService.ServeHTTP 90 honouredRoll 4 (1 * Second) (tokenRequest "tokenA")
      { callbacks := [] }).1).1

/-! ## Vocabulary for runs -/

/-- The event is a call of `GetRouteActivity`. -/
def Event.isLookup : Event → Bool
  | .getRoute _ _ => true
  | .transmit _ _ => false

/-- The event is a call of `TransmitActivity`. -/
def Event.isTransmit : Event → Bool
  | .getRoute _ _ => false
  | .transmit _ _ => true

/-- The event is a `GetRouteActivity` call that returned an error. -/
def Event.lookupFailed : Event → Bool
  | .getRoute _ (.error _) => true
  | _ => false

/-- The event is a `GetRouteActivity` call that reported `Empty = true`. -/
def Event.reportsEmpty : Event → Bool
  | .getRoute _ (.ok out) => out.Empty
  | _ => false

/-- The packet handed to the activity. -/
def Event.packet : Event → Packet
  | .getRoute arg _ => arg.Packet
  | .transmit arg _ => arg.Packet

/-- The packet values a run exposes: the packet at each activity call (at the
head of a pass, and after `CurrentRouteProvider` is set), then the returned one. -/
def Run.packets (r : Run) : List Packet :=
  r.trace.map Event.packet ++ [r.out.Packet]

/-- The packet invariant of the data model: no provider is listed twice in
`FailedRouteProviders`, and a non-empty `CurrentRouteProvider` is not listed. -/
def Packet.NoRepeat (q : Packet) : Prop :=
  q.FailedRouteProviders.Nodup ∧
    (q.CurrentRouteProvider ≠ "" → q.CurrentRouteProvider ∉ q.FailedRouteProviders)

/-- The packet at the head of pass `i` (from `0`) when the passes before it
tried the routes `rs[0], ..., rs[i-1]` and each transmission failed. -/
def packetAt (p : Packet) (rs : List String) (i : Nat) : Packet :=
  if i = 0 then p
  else { p with FailedRouteProviders := p.FailedRouteProviders ++ rs.take i,
                CurrentRouteProvider := "" }

/-- Input of the `GetRouteActivity` call of pass `i`. -/
def lookupArg (p : Packet) (rs : List String) (i : Nat) : GetRouteIn :=
  { Packet := packetAt p rs i }

/-- Input of the `TransmitActivity` call of pass `i`, on route `rs[i]`. -/
def transmitArg (p : Packet) (rs : List String) (i : Nat) : TransmitIn :=
  { Packet := { packetAt p rs i with CurrentRouteProvider := rs.getD i "" } }

/-- The two activity calls of pass `i` when the lookup names `rs[i]`. -/
def passEvents (act : Activities) (p : Packet) (rs : List String) (i : Nat) : List Event :=
  [.getRoute (lookupArg p rs i) (.ok { Empty := false, Route := rs.getD i "" }),
   .transmit (transmitArg p rs i) (act.TransmitActivity i (transmitArg p rs i))]

/-- The activity calls of passes `0, ..., n-1`. -/
def passesEvents (act : Activities) (p : Packet) (rs : List String) : Nat → List Event
  | 0 => []
  | n + 1 => passesEvents act p rs n ++ passEvents act p rs n

/-- The same activities, except that a `TransmitActivity` call that returned an
error returns `TransmitOut{Delivered: false}` and no error. -/
def absorbTransmitErrors (act : Activities) : Activities where
  GetRouteActivity := act.GetRouteActivity
  TransmitActivity := fun i arg =>
    match act.TransmitActivity i arg with
    | .error _ => .ok { Delivered := false }
    | .ok out => .ok out

/-! ## The mocks of activity_workflow_test.go -/

/-- Workflow input of the two `MultipleTransmit` tests. -/
def testIn : DataRoutingIn :=
  { GetRouteMaxAttempts := 1, TransmitPacketMaxAttempts := 2 }

/-- Mocks of `Test_DataRoutingWorkflow_MultipleTransmit_ok`: the lookups return
`badRoute` then `goodRoute` (a third call would index past the slice), and the
transmission succeeds on `goodRoute` only. -/
def testActivities_ok : Activities where
  GetRouteActivity := fun i _ =>
    match i with
    | 0 => .ok { Empty := false, Route := "badRoute" }
    | 1 => .ok { Empty := false, Route := "goodRoute" }
    | _ => .error "index out of range"
  TransmitActivity := fun _ arg =>
    if arg.Packet.CurrentRouteProvider = "goodRoute" then .ok { Delivered := true }
    else .error "activity timed out"

/-- Mocks of `Test_DataRoutingWorkflow_MultipleTransmit_fail`: the lookups
return `badRoute` then the empty answer, and every transmission times out. -/
def testActivities_fail : Activities where
  GetRouteActivity := fun i _ =>
    match i with
    | 0 => .ok { Empty := false, Route := "badRoute" }
    | 1 => .ok { Empty := true, Route := "" }
    | _ => .error "index out of range"
  TransmitActivity := fun _ _ => .error "activity timed out"

/-! ## The submission of main.go -/

/-- Workflow input built by `doSubmit`. -/
def submitIn : DataRoutingIn :=
  { GetRouteMaxAttempts := GetRouteAttempsCount,
    TransmitPacketMaxAttempts := TransmitPacketMaxAttempts,
    Packet :=
      { ID := "00000000-0000-0000-0000-000000000000",
        Source := "+017771110000",
        Destination := "+016660002222",
        Contents := [72, 101, 108, 108, 111],
        Status := StatusNoRoute } }

/-- Activities of a run in which the route service answers every lookup (the
roll `50` is above the default `GetRouteErrChance` of `10`) over the providers
`possible`, and no callback arrives in time, so every transmission times out. -/
def timeoutActivities (possible : List String) : Activities where
  GetRouteActivity := fun _ arg => GetRouteActivity 50 10 possible arg
  TransmitActivity := fun _ _ => .error "activity timed out"

/-! ## Unfolding the loop -/

theorem workflowLoop_exit (act : Activities) (inp : DataRoutingIn) (g t : Nat) (p : Packet)
    (hg : ¬ loopGuard inp p) :
    workflowLoop act inp g t p = ⟨{ Packet := p }, none, []⟩ := by
  rw [workflowLoop, dif_neg hg]

theorem workflowLoop_done (act : Activities) (inp : DataRoutingIn) (g t : Nat) (p : Packet)
    (out : DataRoutingOut) (err : Option String) (evs : List Event)
    (hg : loopGuard inp p) (hb : loopBody act inp g t p = .done out err evs) :
    workflowLoop act inp g t p = ⟨out, err, evs⟩ := by
  rw [workflowLoop, dif_pos hg]
  split
  · rename_i h; rw [hb] at h; injection h with h1 h2 h3; subst h1 h2 h3; rfl
  · rename_i h; rw [hb] at h; exact absurd h (by simp)

theorem workflowLoop_next (act : Activities) (inp : DataRoutingIn) (g t : Nat) (p p2 : Packet)
    (evs : List Event)
    (hg : loopGuard inp p) (hb : loopBody act inp g t p = .next p2 evs) :
    workflowLoop act inp g t p =
      ⟨(workflowLoop act inp (g + 1) (t + 1) p2).out, (workflowLoop act inp (g + 1) (t + 1) p2).err,
        evs ++ (workflowLoop act inp (g + 1) (t + 1) p2).trace⟩ := by
  rw [workflowLoop, dif_pos hg]
  split
  · rename_i h; rw [hb] at h; exact absurd h (by simp)
  · rename_i h; rw [hb] at h; injection h with h1 h2; subst h1 h2; rfl

theorem workflowLoop_lookup_error (act : Activities) (inp : DataRoutingIn) (g t : Nat)
    (p : Packet) (e : String) (hg : loopGuard inp p)
    (hr : act.GetRouteActivity g { Packet := p } = .error e) :
    workflowLoop act inp g t p =
      ⟨{}, some (gaveUp inp), [.getRoute { Packet := p } (.error e)]⟩ := by
  apply workflowLoop_done _ _ _ _ _ _ _ _ hg
  simp only [loopBody, hr]

theorem workflowLoop_lookup_empty (act : Activities) (inp : DataRoutingIn) (g t : Nat)
    (p : Packet) (out : GetRouteOut) (hg : loopGuard inp p)
    (hr : act.GetRouteActivity g { Packet := p } = .ok out) (he : out.Empty = true) :
    workflowLoop act inp g t p =
      ⟨{ Packet := { p with Status := StatusNoRoute } }, none,
        [.getRoute { Packet := p } (.ok out)]⟩ := by
  apply workflowLoop_done _ _ _ _ _ _ _ _ hg
  simp only [loopBody, hr, he, if_true]

theorem workflowLoop_transmit_failed (act : Activities) (inp : DataRoutingIn) (g t : Nat)
    (p : Packet) (out : GetRouteOut) (hg : loopGuard inp p)
    (hr : act.GetRouteActivity g { Packet := p } = .ok out) (he : out.Empty = false)
    (ht : (transmitOutOf (act.TransmitActivity t
      { Packet := { p with CurrentRouteProvider := out.Route } })).Delivered = false) :
    workflowLoop act inp g t p =
      ⟨(workflowLoop act inp (g + 1) (t + 1)
          { p with FailedRouteProviders := p.FailedRouteProviders ++ [out.Route],
                   CurrentRouteProvider := "" }).out,
        (workflowLoop act inp (g + 1) (t + 1)
          { p with FailedRouteProviders := p.FailedRouteProviders ++ [out.Route],
                   CurrentRouteProvider := "" }).err,
        [.getRoute { Packet := p } (.ok out),
         .transmit { Packet := { p with CurrentRouteProvider := out.Route } }
           (act.TransmitActivity t { Packet := { p with CurrentRouteProvider := out.Route } })] ++
        (workflowLoop act inp (g + 1) (t + 1)
          { p with FailedRouteProviders := p.FailedRouteProviders ++ [out.Route],
                   CurrentRouteProvider := "" }).trace⟩ := by
  apply workflowLoop_next _ _ _ _ _ _ _ hg
  simp [loopBody, hr, he, ht]

theorem workflowLoop_transmit_ok (act : Activities) (inp : DataRoutingIn) (g t : Nat)
    (p : Packet) (out : GetRouteOut) (hg : loopGuard inp p)
    (hr : act.GetRouteActivity g { Packet := p } = .ok out) (he : out.Empty = false)
    (ht : (transmitOutOf (act.TransmitActivity t
      { Packet := { p with CurrentRouteProvider := out.Route } })).Delivered = true) :
    workflowLoop act inp g t p =
      ⟨{ Packet := { p with CurrentRouteProvider := out.Route, Status := StatusDelivered } }, none,
        [.getRoute { Packet := p } (.ok out),
         .transmit { Packet := { p with CurrentRouteProvider := out.Route } }
           (act.TransmitActivity t { Packet := { p with CurrentRouteProvider := out.Route } })]⟩ := by
  have hb : loopBody act inp g t p =
      .next { p with CurrentRouteProvider := out.Route, Status := StatusDelivered }
        [.getRoute { Packet := p } (.ok out),
         .transmit { Packet := { p with CurrentRouteProvider := out.Route } }
           (act.TransmitActivity t { Packet := { p with CurrentRouteProvider := out.Route } })] := by
    simp [loopBody, hr, he, ht]
  rw [workflowLoop_next _ _ _ _ _ _ _ hg hb, workflowLoop_exit]
  · simp
  · simp [loopGuard]

/-- Induction over the passes of the loop: a property of runs that holds for
the four ways a run ends and is preserved by a pass with a failed transmission
holds for every run. -/
theorem workflowLoop_cases (act : Activities) (inp : DataRoutingIn)
    (motive : Nat → Nat → Packet → Run → Prop)
    (exit : ∀ g t p, ¬ loopGuard inp p → motive g t p ⟨{ Packet := p }, none, []⟩)
    (lookup_error : ∀ g t p e, loopGuard inp p →
      act.GetRouteActivity g { Packet := p } = .error e →
      motive g t p ⟨{}, some (gaveUp inp), [.getRoute { Packet := p } (.error e)]⟩)
    (lookup_empty : ∀ g t p out, loopGuard inp p →
      act.GetRouteActivity g { Packet := p } = .ok out → out.Empty = true →
      motive g t p ⟨{ Packet := { p with Status := StatusNoRoute } }, none,
        [.getRoute { Packet := p } (.ok out)]⟩)
    (transmit_ok : ∀ g t p out, loopGuard inp p →
      act.GetRouteActivity g { Packet := p } = .ok out → out.Empty = false →
      (transmitOutOf (act.TransmitActivity t
        { Packet := { p with CurrentRouteProvider := out.Route } })).Delivered = true →
      motive g t p
        ⟨{ Packet := { p with CurrentRouteProvider := out.Route, Status := StatusDelivered } },
          none,
          [.getRoute { Packet := p } (.ok out),
           .transmit { Packet := { p with CurrentRouteProvider := out.Route } }
             (act.TransmitActivity t
               { Packet := { p with CurrentRouteProvider := out.Route } })]⟩)
    (transmit_failed : ∀ g t p out (rest : Run), loopGuard inp p →
      act.GetRouteActivity g { Packet := p } = .ok out → out.Empty = false →
      (transmitOutOf (act.TransmitActivity t
        { Packet := { p with CurrentRouteProvider := out.Route } })).Delivered = false →
      motive (g + 1) (t + 1)
        { p with FailedRouteProviders := p.FailedRouteProviders ++ [out.Route],
                 CurrentRouteProvider := "" } rest →
      motive g t p
        ⟨rest.out, rest.err,
          [.getRoute { Packet := p } (.ok out),
           .transmit { Packet := { p with CurrentRouteProvider := out.Route } }
             (act.TransmitActivity t
               { Packet := { p with CurrentRouteProvider := out.Route } })] ++ rest.trace⟩)
    (g t : Nat) (p : Packet) : motive g t p (workflowLoop act inp g t p) := by
  generalize hn : loopVariant inp p = n
  induction n using Nat.strong_induction_on generalizing g t p with
  | _ n ih =>
    by_cases hg : loopGuard inp p
    · cases hr : act.GetRouteActivity g { Packet := p } with
      | error e =>
        rw [workflowLoop_lookup_error act inp g t p e hg hr]
        exact lookup_error g t p e hg hr
      | ok out =>
        cases he : out.Empty with
        | true =>
          rw [workflowLoop_lookup_empty act inp g t p out hg hr he]
          exact lookup_empty g t p out hg hr he
        | false =>
          cases ht : (transmitOutOf (act.TransmitActivity t
              { Packet := { p with CurrentRouteProvider := out.Route } })).Delivered with
          | true =>
            rw [workflowLoop_transmit_ok act inp g t p out hg hr he ht]
            exact transmit_ok g t p out hg hr he ht
          | false =>
            rw [workflowLoop_transmit_failed act inp g t p out hg hr he ht]
            apply transmit_failed g t p out _ hg hr he ht
            apply ih _ _ _ _ _ rfl
            subst hn
            obtain ⟨hs, hl⟩ := hg
            simp only [loopVariant, hs, if_false, List.length_append, List.length_singleton]
            push_cast
            omega
    · rw [workflowLoop_exit act inp g t p hg]
      exact exit g t p hg

/-! ## Passes whose transmission fails -/

theorem transmitOutOf_delivered_false (res : Except String TransmitOut) :
    (transmitOutOf res).Delivered = false ↔ res ≠ .ok { Delivered := true } := by
  cases res with
  | error e => simp [transmitOutOf]
  | ok out =>
    cases out with
    | mk d => cases d <;> simp [transmitOutOf]

theorem transmitOutOf_delivered_true (res : Except String TransmitOut) :
    (transmitOutOf res).Delivered = true ↔ res = .ok { Delivered := true } := by
  cases res with
  | error e => simp [transmitOutOf]
  | ok out =>
    cases out with
    | mk d => cases d <;> simp [transmitOutOf]

theorem take_succ_getD (rs : List String) (n : Nat) (hn : n < rs.length) :
    rs.take (n + 1) = rs.take n ++ [rs.getD n ""] := by
  induction rs generalizing n with
  | nil => simp at hn
  | cons a l ih =>
    cases n with
    | zero => simp
    | succ m =>
      have hm : m < l.length := by simpa using hn
      simp [List.take_succ_cons, ih m hm]

theorem packetAt_status (p : Packet) (rs : List String) (i : Nat) :
    (packetAt p rs i).Status = p.Status := by
  unfold packetAt; split <;> rfl

theorem packetAt_failed (p : Packet) (rs : List String) (i : Nat) :
    (packetAt p rs i).FailedRouteProviders = p.FailedRouteProviders ++ rs.take i := by
  unfold packetAt; split
  · next h => subst h; simp
  · rfl

theorem packetAt_succ (p : Packet) (rs : List String) (n : Nat) (hn : n < rs.length) :
    ({ packetAt p rs n with
        FailedRouteProviders := (packetAt p rs n).FailedRouteProviders ++ [rs.getD n ""],
        CurrentRouteProvider := "" } : Packet) = packetAt p rs (n + 1) := by
  rw [packetAt_failed]
  by_cases h0 : n = 0
  · subst h0
    simp [packetAt, take_succ_getD rs 0 hn]
  · simp [packetAt, h0, take_succ_getD rs n hn]

theorem run_eta (r : Run) : (⟨r.out, r.err, r.trace⟩ : Run) = r := by
  cases r; rfl

/-- While every lookup names a route and every transmission fails, the loop
moves from pass to pass: after `n` such passes it continues from `packetAt p rs n`. -/
theorem workflowLoop_passes (act : Activities) (inp : DataRoutingIn) (p : Packet)
    (rs : List String) (n : Nat) (hn : n ≤ rs.length) (hs : p.Status ≠ StatusDelivered)
    (hb : (p.FailedRouteProviders.length : Int) + n ≤ inp.TransmitPacketMaxAttempts)
    (hroute : ∀ i, i < n → act.GetRouteActivity i (lookupArg p rs i) =
      .ok { Empty := false, Route := rs.getD i "" })
    (hfail : ∀ i, i < n → act.TransmitActivity i (transmitArg p rs i) ≠
      .ok { Delivered := true }) :
    workflowLoop act inp 0 0 p =
      ⟨(workflowLoop act inp n n (packetAt p rs n)).out,
        (workflowLoop act inp n n (packetAt p rs n)).err,
        passesEvents act p rs n ++ (workflowLoop act inp n n (packetAt p rs n)).trace⟩ := by
  induction n with
  | zero => simp [packetAt, passesEvents, run_eta]
  | succ m ih =>
    have hm : m < rs.length := hn
    rw [ih (Nat.le_of_lt hm) (by push_cast at hb; omega)
      (fun i hi => hroute i (Nat.lt_succ_of_lt hi)) (fun i hi => hfail i (Nat.lt_succ_of_lt hi))]
    have hg : loopGuard inp (packetAt p rs m) := by
      refine ⟨by rw [packetAt_status]; exact hs, ?_⟩
      rw [packetAt_failed, List.length_append, List.length_take, Nat.min_eq_left (Nat.le_of_lt hm)]
      push_cast at hb ⊢
      omega
    have hr := hroute m (Nat.lt_succ_self m)
    have ht := (transmitOutOf_delivered_false _).mpr (hfail m (Nat.lt_succ_self m))
    rw [workflowLoop_transmit_failed act inp m m (packetAt p rs m) _ hg hr rfl ht]
    simp only [packetAt_succ p rs m hm, passesEvents, passEvents, lookupArg, transmitArg,
      List.append_assoc]

theorem passesEvents_lookups (act : Activities) (p : Packet) (rs : List String) (n : Nat) :
    (passesEvents act p rs n).countP Event.isLookup = n := by
  induction n with
  | zero => rfl
  | succ m ih => simp [passesEvents, passEvents, List.countP_append, ih, Event.isLookup]

theorem passesEvents_transmits (act : Activities) (p : Packet) (rs : List String) (n : Nat) :
    (passesEvents act p rs n).countP Event.isTransmit = n := by
  induction n with
  | zero => rfl
  | succ m ih => simp [passesEvents, passEvents, List.countP_append, ih, Event.isTransmit]

theorem passesEvents_getLast (act : Activities) (p : Packet) (rs : List String) (n : Nat) :
    (passesEvents act p rs (n + 1)).getLast? =
      some (.transmit (transmitArg p rs n) (act.TransmitActivity n (transmitArg p rs n))) := by
  simp [passesEvents, passEvents]

/-! ## The scenarios of the workflow -/

/-- C1 (fallback then success). From a packet that is not delivered and has no
failed providers, with `k < TransmitPacketMaxAttempts`: if the lookups of passes
`0..k` name the routes `rs[0..k]`, the transmissions of passes `0..k-1` fail or
report `Delivered = false` and the transmission of pass `k` reports
`Delivered = true`, then `DataRoutingWorkflow` returns no error and the input
packet (same `ID`, `Source`, `Destination`, `Contents`) with
`FailedRouteProviders = rs[0..k-1]`, `CurrentRouteProvider = rs[k]` and
`Status = STATUS_DELIVERED`. -/
theorem fallback_then_success (act : Activities) (inp : DataRoutingIn) (rs : List String)
    (k : Nat) (hlen : rs.length = k + 1)
    (hs : inp.Packet.Status ≠ StatusDelivered)
    (hf : inp.Packet.FailedRouteProviders = [])
    (hk : (k : Int) < inp.TransmitPacketMaxAttempts)
    (hroute : ∀ i, i ≤ k → act.GetRouteActivity i (lookupArg inp.Packet rs i) =
      .ok { Empty := false, Route := rs.getD i "" })
    (hfail : ∀ i, i < k → act.TransmitActivity i (transmitArg inp.Packet rs i) ≠
      .ok { Delivered := true })
    (hok : act.TransmitActivity k (transmitArg inp.Packet rs k) = .ok { Delivered := true }) :
    (DataRoutingWorkflow act inp).err = none ∧
    (DataRoutingWorkflow act inp).out.Packet =
      { inp.Packet with
        FailedRouteProviders := rs.take k,
        CurrentRouteProvider := rs.getD k "",
        Status := StatusDelivered } := by
  have hpre := workflowLoop_passes act inp inp.Packet rs k (by omega) hs
    (by rw [hf]; simp; omega) (fun i hi => hroute i (Nat.le_of_lt hi)) hfail
  have hg : loopGuard inp (packetAt inp.Packet rs k) := by
    refine ⟨by rw [packetAt_status]; exact hs, ?_⟩
    rw [packetAt_failed, hf, List.nil_append, List.length_take, Nat.min_eq_left (by omega)]
    exact hk
  have hlast := workflowLoop_transmit_ok act inp k k (packetAt inp.Packet rs k) _ hg
    (hroute k (Nat.le_refl k)) rfl ((transmitOutOf_delivered_true _).mpr hok)
  unfold DataRoutingWorkflow
  simp only [hpre, hlast, packetAt_failed, hf, List.nil_append, true_and]
  unfold packetAt
  split <;> simp_all

theorem testActivities_ok_routes :
    ∀ i, i ≤ 1 → testActivities_ok.GetRouteActivity i
        (lookupArg testIn.Packet ["badRoute", "goodRoute"] i) =
      .ok { Empty := false, Route := ["badRoute", "goodRoute"].getD i "" } := by
  intro i hi
  interval_cases i <;> rfl

/-- Witness of C1: `Test_DataRoutingWorkflow_MultipleTransmit_ok`. -/
theorem fallback_then_success_witness :
    testIn.Packet.Status ≠ StatusDelivered ∧
    (DataRoutingWorkflow testActivities_ok testIn).err = none ∧
    (DataRoutingWorkflow testActivities_ok testIn).out.Packet =
      { FailedRouteProviders := ["badRoute"], CurrentRouteProvider := "goodRoute",
        Status := StatusDelivered } :=
  ⟨by decide,
   fallback_then_success testActivities_ok testIn ["badRoute", "goodRoute"] 1 rfl (by decide) rfl
    (by decide) testActivities_ok_routes
    (by intro i hi; interval_cases i; simp [testActivities_ok, transmitArg, packetAt]) rfl⟩

/-- C2 (route exhaustion is a normal outcome). From a packet that is not
delivered, has no failed providers and no current provider, with
`k < TransmitPacketMaxAttempts`: if the lookups of passes `0..k-1` name the
routes `rs` (`k` of them), the `k` transmissions all fail or report
`Delivered = false`, and the lookup of pass `k` answers `Empty = true`, then
`DataRoutingWorkflow` returns no error and the packet with
`Status = STATUS_NO_ROUTE`, `FailedRouteProviders = rs` and
`CurrentRouteProvider = ""`; its activity calls are those `k` passes followed by
that lookup, which is the last call. -/
theorem route_exhaustion (act : Activities) (inp : DataRoutingIn) (rs : List String)
    (k : Nat) (r : String) (hlen : rs.length = k)
    (hs : inp.Packet.Status ≠ StatusDelivered)
    (hf : inp.Packet.FailedRouteProviders = [])
    (hc : inp.Packet.CurrentRouteProvider = "")
    (hk : (k : Int) < inp.TransmitPacketMaxAttempts)
    (hroute : ∀ i, i < k → act.GetRouteActivity i (lookupArg inp.Packet rs i) =
      .ok { Empty := false, Route := rs.getD i "" })
    (hfail : ∀ i, i < k → act.TransmitActivity i (transmitArg inp.Packet rs i) ≠
      .ok { Delivered := true })
    (hempty : act.GetRouteActivity k (lookupArg inp.Packet rs k) =
      .ok { Empty := true, Route := r }) :
    (DataRoutingWorkflow act inp).err = none ∧
    (DataRoutingWorkflow act inp).out.Packet =
      { inp.Packet with
        FailedRouteProviders := rs,
        CurrentRouteProvider := "",
        Status := StatusNoRoute } ∧
    (DataRoutingWorkflow act inp).trace =
      passesEvents act inp.Packet rs k ++
        [.getRoute (lookupArg inp.Packet rs k) (.ok { Empty := true, Route := r })] ∧
    (DataRoutingWorkflow act inp).trace.getLast? =
      some (.getRoute (lookupArg inp.Packet rs k) (.ok { Empty := true, Route := r })) := by
  have hpre := workflowLoop_passes act inp inp.Packet rs k (by omega) hs
    (by rw [hf]; simp; omega) hroute hfail
  have hg : loopGuard inp (packetAt inp.Packet rs k) := by
    refine ⟨by rw [packetAt_status]; exact hs, ?_⟩
    rw [packetAt_failed, hf, List.nil_append, List.length_take, Nat.min_eq_left (by omega)]
    exact hk
  have hlast := workflowLoop_lookup_empty act inp k k (packetAt inp.Packet rs k) _ hg hempty rfl
  have htake : rs.take k = rs := by rw [← hlen]; exact List.take_length rs
  have hp : ({ packetAt inp.Packet rs k with Status := StatusNoRoute } : Packet) =
      { inp.Packet with FailedRouteProviders := rs, CurrentRouteProvider := "",
                        Status := StatusNoRoute } := by
    unfold packetAt
    split
    · next h0 =>
      subst h0
      have : rs = [] := List.length_eq_zero.mp hlen
      simp [this, ← hf, ← hc]
    · simp [hf, htake]
  rw [hlast] at hpre
  unfold DataRoutingWorkflow
  rw [hpre]
  exact ⟨rfl, hp, rfl, by simp [lookupArg]⟩

/-- Witness of C2: `Test_DataRoutingWorkflow_MultipleTransmit_fail`. -/
theorem route_exhaustion_witness :
    testIn.Packet.Status ≠ StatusDelivered ∧
    (DataRoutingWorkflow testActivities_fail testIn).err = none ∧
    (DataRoutingWorkflow testActivities_fail testIn).out.Packet =
      { FailedRouteProviders := ["badRoute"], CurrentRouteProvider := "",
        Status := StatusNoRoute } :=
  ⟨by decide,
   (route_exhaustion testActivities_fail testIn ["badRoute"] 1 "" rfl (by decide) rfl rfl
    (by decide) (by intro i hi; interval_cases i; rfl)
    (by intro i hi; interval_cases i; simp [testActivities_fail]) rfl).1,
   (route_exhaustion testActivities_fail testIn ["badRoute"] 1 "" rfl (by decide) rfl rfl
    (by decide) (by intro i hi; interval_cases i; rfl)
    (by intro i hi; interval_cases i; simp [testActivities_fail]) rfl).2.1⟩

/-- C3 (attempt-budget exhaustion). With `TransmitPacketMaxAttempts = n ≥ 1`,
from a packet that is not delivered and has no failed providers: if the lookups
of passes `0..n-1` name the routes `rs` (`n` of them) and the `n` transmissions
all fail or report `Delivered = false`, then `DataRoutingWorkflow` makes exactly
`n` lookups and `n` transmissions, the last call being the `n`-th transmission,
and returns no error and the packet with `FailedRouteProviders = rs` (`n`
entries), `CurrentRouteProvider = ""` and the input `Status`. -/
theorem budget_exhaustion (act : Activities) (inp : DataRoutingIn) (rs : List String)
    (n : Nat) (hn : 1 ≤ n) (hmax : inp.TransmitPacketMaxAttempts = n)
    (hlen : rs.length = n)
    (hs : inp.Packet.Status ≠ StatusDelivered)
    (hf : inp.Packet.FailedRouteProviders = [])
    (hroute : ∀ i, i < n → act.GetRouteActivity i (lookupArg inp.Packet rs i) =
      .ok { Empty := false, Route := rs.getD i "" })
    (hfail : ∀ i, i < n → act.TransmitActivity i (transmitArg inp.Packet rs i) ≠
      .ok { Delivered := true }) :
    (DataRoutingWorkflow act inp).err = none ∧
    (DataRoutingWorkflow act inp).out.Packet =
      { inp.Packet with FailedRouteProviders := rs, CurrentRouteProvider := "" } ∧
    (DataRoutingWorkflow act inp).out.Packet.FailedRouteProviders.length = n ∧
    (DataRoutingWorkflow act inp).out.Packet.Status = inp.Packet.Status ∧
    (DataRoutingWorkflow act inp).trace = passesEvents act inp.Packet rs n ∧
    (DataRoutingWorkflow act inp).trace.countP Event.isLookup = n ∧
    (DataRoutingWorkflow act inp).trace.countP Event.isTransmit = n ∧
    (DataRoutingWorkflow act inp).trace.getLast? =
      some (.transmit (transmitArg inp.Packet rs (n - 1))
        (act.TransmitActivity (n - 1) (transmitArg inp.Packet rs (n - 1)))) := by
  have hpre := workflowLoop_passes act inp inp.Packet rs n (by omega) hs
    (by rw [hf, hmax]; simp) hroute hfail
  have hg : ¬ loopGuard inp (packetAt inp.Packet rs n) := by
    rintro ⟨_, h⟩
    rw [packetAt_failed, hf, List.nil_append, List.length_take, Nat.min_eq_left (by omega),
      hmax] at h
    exact lt_irrefl _ h
  have hlast := workflowLoop_exit act inp n n (packetAt inp.Packet rs n) hg
  have htake : rs.take n = rs := by rw [← hlen]; exact List.take_length rs
  have hp : packetAt inp.Packet rs n =
      { inp.Packet with FailedRouteProviders := rs, CurrentRouteProvider := "" } := by
    unfold packetAt
    rw [if_neg (by omega), hf, htake]
    rfl
  rw [hlast] at hpre
  obtain ⟨m, rfl⟩ : ∃ m, n = m + 1 := ⟨n - 1, by omega⟩
  unfold DataRoutingWorkflow
  rw [hpre]
  refine ⟨rfl, hp, ?_, ?_, List.append_nil _, ?_, ?_, ?_⟩
  · simp only [hp, hlen]
  · simp only [hp]
  · simp only [List.append_nil, passesEvents_lookups]
  · simp only [List.append_nil, passesEvents_transmits]
  · simp only [List.append_nil, passesEvents_getLast, Nat.add_sub_cancel]

/-- Witness of C3: Scenario D, one attempt allowed and its transmission fails. -/
theorem budget_exhaustion_witness :
    (1 : Nat) ≤ 1 ∧
    (DataRoutingWorkflow testActivities_fail { testIn with TransmitPacketMaxAttempts := 1 }).out.Packet
      = { FailedRouteProviders := ["badRoute"], CurrentRouteProvider := "", Status := "" } ∧
    (DataRoutingWorkflow testActivities_fail
      { testIn with TransmitPacketMaxAttempts := 1 }).trace.countP Event.isLookup = 1 :=
  ⟨Nat.le_refl 1,
   (budget_exhaustion testActivities_fail { testIn with TransmitPacketMaxAttempts := 1 }
    ["badRoute"] 1 (Nat.le_refl 1) rfl rfl (by decide) rfl
    (by intro i hi; interval_cases i; rfl)
    (by intro i hi; interval_cases i; simp [testActivities_fail])).2.1,
   (budget_exhaustion testActivities_fail { testIn with TransmitPacketMaxAttempts := 1 }
    ["badRoute"] 1 (Nat.le_refl 1) rfl rfl (by decide) rfl
    (by intro i hi; interval_cases i; rfl)
    (by intro i hi; interval_cases i; simp [testActivities_fail])).2.2.2.2.2.1⟩

/-! ## Errors -/

/-- A run either returns no error and no lookup failed, or it returns the
`gaveUp` error with the empty output, right after its only failed lookup. -/
theorem workflowLoop_error_shape (act : Activities) (inp : DataRoutingIn) (g t : Nat)
    (p : Packet) :
    ((workflowLoop act inp g t p).err = none ∧
      ∀ x ∈ (workflowLoop act inp g t p).trace, x.lookupFailed = false) ∨
    ((workflowLoop act inp g t p).err = some (gaveUp inp) ∧
      (workflowLoop act inp g t p).out = {} ∧
      ∃ pre e, (workflowLoop act inp g t p).trace = pre ++ [e] ∧ e.lookupFailed = true ∧
        ∀ x ∈ pre, x.lookupFailed = false) := by
  refine workflowLoop_cases act inp
    (fun _ _ _ run =>
      (run.err = none ∧ ∀ x ∈ run.trace, x.lookupFailed = false) ∨
      (run.err = some (gaveUp inp) ∧ run.out = {} ∧
        ∃ pre e, run.trace = pre ++ [e] ∧ e.lookupFailed = true ∧
          ∀ x ∈ pre, x.lookupFailed = false)) ?_ ?_ ?_ ?_ ?_ g t p
  · intro g t p _
    exact Or.inl ⟨rfl, by simp⟩
  · intro g t p e _ _
    exact Or.inr ⟨rfl, rfl, [], _, rfl, rfl, by simp⟩
  · intro g t p out _ _ _
    exact Or.inl ⟨rfl, by simp [Event.lookupFailed]⟩
  · intro g t p out _ _ _ _
    exact Or.inl ⟨rfl, by simp [Event.lookupFailed]⟩
  · intro g t p out rest _ _ _ _ ih
    rcases ih with ⟨h1, h2⟩ | ⟨h1, h2, pre, e, h3, h4, h5⟩
    · refine Or.inl ⟨h1, ?_⟩
      intro x hx
      simp only [List.mem_append, List.mem_cons, List.mem_singleton, List.not_mem_nil,
        or_false] at hx
      rcases hx with (rfl | rfl) | hx
      · rfl
      · rfl
      · exact h2 x hx
    · refine Or.inr ⟨h1, h2, ?_⟩
      simp only [h3]
      refine ⟨_ :: _ :: pre, e, by simp only [List.cons_append, List.nil_append]; rfl, h4, ?_⟩
      intro x hx
      simp only [List.mem_cons] at hx
      rcases hx with rfl | rfl | hx
      · rfl
      · rfl
      · exact h5 x hx

theorem absorb_transmitOutOf (act : Activities) (i : Nat) (arg : TransmitIn) :
    transmitOutOf ((absorbTransmitErrors act).TransmitActivity i arg) =
      transmitOutOf (act.TransmitActivity i arg) := by
  simp only [absorbTransmitErrors]
  cases act.TransmitActivity i arg <;> rfl

/-- Turning the transmission errors into `Delivered = false` answers changes
neither the output nor the error of a run. -/
theorem workflowLoop_absorb (act : Activities) (inp : DataRoutingIn) (g t : Nat) (p : Packet) :
    (workflowLoop (absorbTransmitErrors act) inp g t p).out = (workflowLoop act inp g t p).out ∧
    (workflowLoop (absorbTransmitErrors act) inp g t p).err = (workflowLoop act inp g t p).err := by
  refine workflowLoop_cases act inp
    (fun g t p run =>
      (workflowLoop (absorbTransmitErrors act) inp g t p).out = run.out ∧
      (workflowLoop (absorbTransmitErrors act) inp g t p).err = run.err) ?_ ?_ ?_ ?_ ?_ g t p
  · intro g t p hg
    rw [workflowLoop_exit _ inp g t p hg]
    exact ⟨rfl, rfl⟩
  · intro g t p e hg hr
    rw [workflowLoop_lookup_error (absorbTransmitErrors act) inp g t p e hg hr]
    exact ⟨rfl, rfl⟩
  · intro g t p out hg hr he
    rw [workflowLoop_lookup_empty (absorbTransmitErrors act) inp g t p out hg hr he]
    exact ⟨rfl, rfl⟩
  · intro g t p out hg hr he ht
    rw [workflowLoop_transmit_ok (absorbTransmitErrors act) inp g t p out hg hr he
      (by rw [absorb_transmitOutOf]; exact ht)]
    exact ⟨rfl, rfl⟩
  · intro g t p out rest hg hr he ht ih
    rw [workflowLoop_transmit_failed (absorbTransmitErrors act) inp g t p out hg hr he
      (by rw [absorb_transmitOutOf]; exact ht)]
    exact ih

/-- C4 (only a failed route lookup is fatal). For every input and every
behaviour of the activities: `DataRoutingWorkflow` returns an error exactly when
one of its `GetRouteActivity` calls returned an error; then the output is the
empty `DataRoutingOut`, that call is the last call of the run and no earlier
lookup failed. Replacing every transmission error by a `Delivered = false`
answer changes neither the output nor the error. -/
theorem only_lookup_failure_is_fatal (act : Activities) (inp : DataRoutingIn) :
    ((DataRoutingWorkflow act inp).err ≠ none ↔
      ∃ e ∈ (DataRoutingWorkflow act inp).trace, e.lookupFailed = true) ∧
    ((DataRoutingWorkflow act inp).err ≠ none →
      (DataRoutingWorkflow act inp).err = some (gaveUp inp) ∧
      (DataRoutingWorkflow act inp).out = {} ∧
      ∃ pre e, (DataRoutingWorkflow act inp).trace = pre ++ [e] ∧ e.lookupFailed = true ∧
        ∀ x ∈ pre, x.lookupFailed = false) ∧
    (DataRoutingWorkflow (absorbTransmitErrors act) inp).out = (DataRoutingWorkflow act inp).out ∧
    (DataRoutingWorkflow (absorbTransmitErrors act) inp).err = (DataRoutingWorkflow act inp).err := by
  unfold DataRoutingWorkflow
  refine ⟨?_, ?_, workflowLoop_absorb act inp 0 0 inp.Packet⟩
  · rcases workflowLoop_error_shape act inp 0 0 inp.Packet with
      ⟨h1, h2⟩ | ⟨h1, _, pre, e, h3, h4, _⟩
    · constructor
      · intro h; exact absurd h1 h
      · rintro ⟨e, he, hf⟩
        rw [h2 e he] at hf
        exact absurd hf (by decide)
    · constructor
      · intro _; exact ⟨e, by simp [h3], h4⟩
      · intro _; simp [h1]
  · intro h
    rcases workflowLoop_error_shape act inp 0 0 inp.Packet with ⟨h1, _⟩ | h'
    · exact absurd h1 h
    · exact h'

/-! ## Route selection -/

theorem foldl_update_true (tried : List String) (t0 : String → Bool) (x : String) :
    (tried.foldl (fun t elem => Function.update t elem true) t0) x = true ↔
      x ∈ tried ∨ t0 x = true := by
  induction tried generalizing t0 with
  | nil => simp
  | cons a l ih =>
    rw [List.foldl_cons, ih, List.mem_cons, Function.update_apply]
    by_cases hx : x = a
    · simp [hx]
    · simp [hx]

theorem triedMap_true (tried : List String) (x : String) :
    triedMap tried x = true ↔ x ∈ tried := by
  unfold triedMap
  rw [foldl_update_true]
  simp

theorem triedMap_false (tried : List String) (x : String) :
    triedMap tried x = false ↔ x ∉ tried := by
  rw [← triedMap_true, Bool.not_eq_true]

/-- The scan returns the first route that `t` does not hold, or the empty answer
when `t` holds every route. -/
theorem scanRoutes_spec (t : String → Bool) (possible : List String) :
    (∃ pre p post, possible = pre ++ p :: post ∧ (∀ x ∈ pre, t x = true) ∧ t p = false ∧
      scanRoutes t possible = { Empty := false, Route := p }) ∨
    ((∀ x ∈ possible, t x = true) ∧ scanRoutes t possible = { Empty := true, Route := "" }) := by
  induction possible with
  | nil => exact Or.inr ⟨by simp, rfl⟩
  | cons a l ih =>
    cases ha : t a with
    | false =>
      exact Or.inl ⟨[], a, l, rfl, by simp, ha, by simp [scanRoutes, ha]⟩
    | true =>
      rcases ih with ⟨pre, q, post, h1, h2, h3, h4⟩ | ⟨h1, h2⟩
      · refine Or.inl ⟨a :: pre, q, post, by simp [h1], ?_, h3, by simp [scanRoutes, ha, h4]⟩
        intro x hx
        rcases List.mem_cons.mp hx with rfl | hx
        · exact ha
        · exact h2 x hx
      · refine Or.inr ⟨?_, by simp [scanRoutes, ha, h2]⟩
        intro x hx
        rcases List.mem_cons.mp hx with rfl | hx
        · exact ha
        · exact h1 x hx

/-- A route named by the scan is one that `t` does not hold. -/
theorem scanRoutes_route (t : String → Bool) (possible : List String)
    (h : (scanRoutes t possible).Empty = false) :
    t (scanRoutes t possible).Route = false ∧ (scanRoutes t possible).Route ∈ possible := by
  rcases scanRoutes_spec t possible with ⟨pre, q, post, h1, _, h3, h4⟩ | ⟨_, h2⟩
  · rw [h4]
    exact ⟨h3, by simp [h1]⟩
  · rw [h2] at h
    exact absurd h (by decide)

/-- C5 (GetRoute selection is first-untried). When the roll is at least
`GetRouteErrChance`: if some element of `PossibleRouteProviders` is not in
`tried`, `GetRoute` returns `Empty = false` with the first such element in list
order; if every element is in `tried`, it returns `Empty = true` with
`Route = ""`. The result is the same for any `tried2` with the same members as
`tried`, and a route returned with `Empty = false` is not a member of `tried`. -/
theorem getRoute_first_untried (roll chance : Int) (possible tried : List String)
    (hroll : chance ≤ roll) :
    ((∃ x ∈ possible, x ∉ tried) →
      ∃ pre p post, possible = pre ++ p :: post ∧ (∀ x ∈ pre, x ∈ tried) ∧ p ∉ tried ∧
        GetRoute roll chance possible tried = .ok { Empty := false, Route := p }) ∧
    ((∀ x ∈ possible, x ∈ tried) →
      GetRoute roll chance possible tried = .ok { Empty := true, Route := "" }) ∧
    (∀ tried2 : List String, (∀ x, x ∈ tried2 ↔ x ∈ tried) →
      GetRoute roll chance possible tried2 = GetRoute roll chance possible tried) ∧
    (∀ out, GetRoute roll chance possible tried = .ok out → out.Empty = false →
      out.Route ∉ tried) := by
  have hnot : ¬ roll < chance := not_lt.mpr hroll
  refine ⟨?_, ?_, ?_, ?_⟩
  · rintro ⟨x, hx, hxt⟩
    rcases scanRoutes_spec (triedMap tried) possible with ⟨pre, q, post, h1, h2, h3, h4⟩ | ⟨h1, _⟩
    · refine ⟨pre, q, post, h1, fun y hy => (triedMap_true tried y).mp (h2 y hy),
        (triedMap_false tried q).mp h3, ?_⟩
      simp only [GetRoute, if_neg hnot, h4]
    · exact absurd ((triedMap_true tried x).mp (h1 x hx)) hxt
  · intro hall
    rcases scanRoutes_spec (triedMap tried) possible with ⟨pre, q, post, h1, _, h3, _⟩ | ⟨_, h2⟩
    · exact absurd (hall q (by simp [h1])) ((triedMap_false tried q).mp h3)
    · simp only [GetRoute, if_neg hnot, h2]
  · intro tried2 hsame
    have : triedMap tried2 = triedMap tried := by
      funext x
      rw [Bool.eq_iff_iff, triedMap_true, triedMap_true]
      exact hsame x
    simp only [GetRoute, this]
  · intro out hout hempty
    simp only [GetRoute, if_neg hnot, Except.ok.injEq] at hout
    subst hout
    exact (triedMap_false tried _).mp (scanRoutes_route _ _ hempty).1

/-- Witness of C5: with every provider already tried the answer is empty. -/
theorem getRoute_first_untried_witness :
    (10 : Int) ≤ 50 ∧
    GetRoute 50 10 PossibleRouteProviders
        ["RouteE", "RouteD", "RouteA", "RouteB", "RouteC", "RouteA"] =
      .ok { Empty := true, Route := "" } :=
  ⟨by decide,
   (getRoute_first_untried 50 10 PossibleRouteProviders
      ["RouteE", "RouteD", "RouteA", "RouteB", "RouteC", "RouteA"] (by decide)).2.1
      (by decide)⟩

/-! ## Terminal statuses -/

theorem empty_ne_delivered : ("" : String) ≠ StatusDelivered := by decide

theorem noRoute_ne_delivered : StatusNoRoute ≠ StatusDelivered := by decide

theorem empty_ne_noRoute : ("" : String) ≠ StatusNoRoute := by decide

theorem workflowLoop_delivered (act : Activities) (inp : DataRoutingIn) (g t : Nat) (p : Packet)
    (hs : p.Status ≠ StatusDelivered)
    (hd : (workflowLoop act inp g t p).out.Packet.Status = StatusDelivered) :
    (workflowLoop act inp g t p).err = none ∧
    ∃ arg, (workflowLoop act inp g t p).trace.getLast? =
      some (.transmit arg (.ok { Delivered := true })) := by
  revert hs hd
  refine workflowLoop_cases act inp
    (fun _ _ p run => p.Status ≠ StatusDelivered → run.out.Packet.Status = StatusDelivered →
      run.err = none ∧ ∃ arg, run.trace.getLast? = some (.transmit arg (.ok { Delivered := true })))
    ?_ ?_ ?_ ?_ ?_ g t p
  · intro g t p _ hs hd
    exact absurd hd hs
  · intro g t p e _ _ _ hd
    exact absurd hd empty_ne_delivered
  · intro g t p out _ _ _ _ hd
    exact absurd hd noRoute_ne_delivered
  · intro g t p out _ _ _ ht _ _
    refine ⟨rfl, { Packet := { p with CurrentRouteProvider := out.Route } }, ?_⟩
    rw [(transmitOutOf_delivered_true _).mp ht]
    rfl
  · intro g t p out rest _ _ _ _ ih hs hd
    obtain ⟨h1, arg, h2⟩ := ih hs hd
    refine ⟨h1, arg, ?_⟩
    simp only [List.getLast?_append, h2, Option.or_some]

/-- C6 (DELIVERED is sound). From a packet whose `Status` is not
`STATUS_DELIVERED`, for every behaviour of the activities: if the returned
packet has `Status = STATUS_DELIVERED`, then no error is returned and the last
activity call of the run is a `TransmitActivity` call that returned no error and
`Delivered = true`. -/
theorem delivered_sound (act : Activities) (inp : DataRoutingIn)
    (hs : inp.Packet.Status ≠ StatusDelivered)
    (hd : (DataRoutingWorkflow act inp).out.Packet.Status = StatusDelivered) :
    (DataRoutingWorkflow act inp).err = none ∧
    ∃ arg, (DataRoutingWorkflow act inp).trace.getLast? =
      some (.transmit arg (.ok { Delivered := true })) :=
  workflowLoop_delivered act inp 0 0 inp.Packet hs hd

/-- Witness of C6: the run of `Test_DataRoutingWorkflow_MultipleTransmit_ok`. -/
theorem delivered_sound_witness :
    testIn.Packet.Status ≠ StatusDelivered ∧
    (DataRoutingWorkflow testActivities_ok testIn).out.Packet.Status = StatusDelivered ∧
    (DataRoutingWorkflow testActivities_ok testIn).err = none :=
  have hd : (DataRoutingWorkflow testActivities_ok testIn).out.Packet.Status = StatusDelivered := by
    simp [DataRoutingWorkflow, workflowLoop, loopBody, loopGuard, testActivities_ok, testIn,
      transmitOutOf, StatusDelivered]
  ⟨by decide, hd, (delivered_sound testActivities_ok testIn (by decide) hd).1⟩

theorem workflowLoop_noRoute (act : Activities) (inp : DataRoutingIn) (g t : Nat) (p : Packet)
    (hr : (workflowLoop act inp g t p).out.Packet.Status = StatusNoRoute) :
    (∃ e ∈ (workflowLoop act inp g t p).trace, e.reportsEmpty = true) ∨
    inp.TransmitPacketMaxAttempts ≤
      ((workflowLoop act inp g t p).out.Packet.FailedRouteProviders.length : Int) := by
  revert hr
  refine workflowLoop_cases act inp
    (fun _ _ _ run => run.out.Packet.Status = StatusNoRoute →
      (∃ e ∈ run.trace, e.reportsEmpty = true) ∨
      inp.TransmitPacketMaxAttempts ≤ (run.out.Packet.FailedRouteProviders.length : Int))
    ?_ ?_ ?_ ?_ ?_ g t p
  · intro g t p hg hr
    right
    by_contra hlt
    refine hg ⟨?_, not_le.mp hlt⟩
    have hp : p.Status = StatusNoRoute := hr
    rw [hp]
    exact noRoute_ne_delivered
  · intro g t p e _ _ hr
    exact absurd hr empty_ne_noRoute
  · intro g t p out _ _ he _
    exact Or.inl ⟨_, List.mem_singleton.mpr rfl, he⟩
  · intro g t p out _ _ _ _ hr
    exact absurd hr.symm noRoute_ne_delivered
  · intro g t p out rest _ _ _ _ ih hr
    rcases ih hr with ⟨e, he, h⟩ | h
    · exact Or.inl ⟨e, List.mem_append_right _ he, h⟩
    · exact Or.inr h

/-- C7, as stated, fails: the packet submitted by `doSubmit`
(`Status = STATUS_NO_ROUTE`, no failed provider, no current provider,
`TransmitPacketMaxAttempts = 4`), routed over the five configured providers with
every transmission timing out, comes back with `Status = STATUS_NO_ROUTE` and no
error although no `GetRouteActivity` call reported `Empty = true`. -/
theorem noRoute_without_exhaustion :
    submitIn.Packet.Status = StatusNoRoute ∧
    submitIn.Packet.FailedRouteProviders = [] ∧
    submitIn.Packet.CurrentRouteProvider = "" ∧
    (DataRoutingWorkflow (timeoutActivities PossibleRouteProviders) submitIn).err = none ∧
    (DataRoutingWorkflow (timeoutActivities PossibleRouteProviders) submitIn).out.Packet.Status =
      StatusNoRoute ∧
    (DataRoutingWorkflow (timeoutActivities PossibleRouteProviders) submitIn).out.Packet.FailedRouteProviders =
      ["RouteA", "RouteB", "RouteC", "RouteD"] ∧
    (DataRoutingWorkflow (timeoutActivities PossibleRouteProviders) submitIn).trace.any
      Event.reportsEmpty = false := by
  refine ⟨rfl, rfl, rfl, ?_⟩
  simp [DataRoutingWorkflow, workflowLoop, loopBody, loopGuard, timeoutActivities, submitIn,
    transmitOutOf, StatusDelivered, StatusNoRoute, GetRouteActivity, GetRoute, scanRoutes,
    triedMap, PossibleRouteProviders, TransmitPacketMaxAttempts, Function.update_apply,
    Event.reportsEmpty]

/-- C7, amended. For every run of `DataRoutingWorkflow`, in particular one
started from a packet as the caller creates it (`Status = STATUS_NO_ROUTE`, no
failed provider, no current provider), and for every behaviour of the
activities: if the returned packet has `Status = STATUS_NO_ROUTE`, then some
`GetRouteActivity` call of the run reported `Empty = true`, or the attempt budget
is spent: the returned packet has at least `TransmitPacketMaxAttempts` failed
providers. -/
theorem noRoute_exhaustion_or_budget (act : Activities) (inp : DataRoutingIn)
    (hr : (DataRoutingWorkflow act inp).out.Packet.Status = StatusNoRoute) :
    (DataRoutingWorkflow act inp).trace.any Event.reportsEmpty = true ∨
    inp.TransmitPacketMaxAttempts ≤
      ((DataRoutingWorkflow act inp).out.Packet.FailedRouteProviders.length : Int) := by
  rcases workflowLoop_noRoute act inp 0 0 inp.Packet hr with ⟨e, he, h⟩ | h
  · exact Or.inl (List.any_eq_true.mpr ⟨e, he, h⟩)
  · exact Or.inr h

/-- Witness of C7, amended: the submitted packet routed over a single provider
whose transmission times out; the second lookup reports exhaustion. -/
theorem noRoute_exhaustion_or_budget_witness :
    (DataRoutingWorkflow (timeoutActivities ["RouteA"]) submitIn).out.Packet.Status =
      StatusNoRoute ∧
    ((DataRoutingWorkflow (timeoutActivities ["RouteA"]) submitIn).trace.any
        Event.reportsEmpty = true ∨
      submitIn.TransmitPacketMaxAttempts ≤
        ((DataRoutingWorkflow (timeoutActivities ["RouteA"])
          submitIn).out.Packet.FailedRouteProviders.length : Int)) :=
  have hr : (DataRoutingWorkflow (timeoutActivities ["RouteA"]) submitIn).out.Packet.Status =
      StatusNoRoute := by
    simp [DataRoutingWorkflow, workflowLoop, loopBody, loopGuard, timeoutActivities, submitIn,
      transmitOutOf, StatusDelivered, StatusNoRoute, GetRouteActivity, GetRoute, scanRoutes,
      triedMap, TransmitPacketMaxAttempts, Function.update_apply]
  ⟨hr, noRoute_exhaustion_or_budget (timeoutActivities ["RouteA"]) submitIn hr⟩

/-! ## Invariants of a run -/

theorem packets_pass (rest : Run) (e1 e2 : Event) :
    Run.packets ⟨rest.out, rest.err, [e1, e2] ++ rest.trace⟩ =
      e1.packet :: e2.packet :: rest.packets := by
  simp [Run.packets]

theorem workflowLoop_budget (act : Activities) (inp : DataRoutingIn) (g t : Nat) (p : Packet)
    (hp : (p.FailedRouteProviders.length : Int) ≤ inp.TransmitPacketMaxAttempts) :
    (((workflowLoop act inp g t p).trace.countP Event.isTransmit : Nat) : Int) +
        p.FailedRouteProviders.length ≤ inp.TransmitPacketMaxAttempts ∧
    (((workflowLoop act inp g t p).trace.countP Event.isLookup : Nat) : Int) +
        p.FailedRouteProviders.length ≤ inp.TransmitPacketMaxAttempts ∧
    ∀ q ∈ (workflowLoop act inp g t p).packets,
      (q.FailedRouteProviders.length : Int) ≤ inp.TransmitPacketMaxAttempts := by
  revert hp
  refine workflowLoop_cases act inp
    (fun _ _ p run =>
      (p.FailedRouteProviders.length : Int) ≤ inp.TransmitPacketMaxAttempts →
      ((run.trace.countP Event.isTransmit : Nat) : Int) + p.FailedRouteProviders.length ≤
          inp.TransmitPacketMaxAttempts ∧
      ((run.trace.countP Event.isLookup : Nat) : Int) + p.FailedRouteProviders.length ≤
          inp.TransmitPacketMaxAttempts ∧
      ∀ q ∈ run.packets, (q.FailedRouteProviders.length : Int) ≤ inp.TransmitPacketMaxAttempts)
    ?_ ?_ ?_ ?_ ?_ g t p
  · intro g t p _ hp
    refine ⟨by simp; omega, by simp; omega, ?_⟩
    simp only [Run.packets, List.map_nil, List.nil_append, List.mem_singleton]
    rintro q rfl
    exact hp
  · intro g t p e hg _ hp
    have hlt := hg.2
    refine ⟨by simp [Event.isTransmit]; omega, by simp [Event.isLookup]; omega, ?_⟩
    simp only [Run.packets, List.map_cons, List.map_nil, List.cons_append, List.nil_append,
      List.mem_cons, List.not_mem_nil, or_false, Event.packet]
    rintro q (rfl | rfl)
    · exact hp
    · simp only [List.length_nil]; push_cast; omega
  · intro g t p out hg _ _ hp
    have hlt := hg.2
    refine ⟨by simp [Event.isTransmit]; omega, by simp [Event.isLookup]; omega, ?_⟩
    simp only [Run.packets, List.map_cons, List.map_nil, List.cons_append, List.nil_append,
      List.mem_cons, List.not_mem_nil, or_false, Event.packet]
    rintro q (rfl | rfl)
    · exact hp
    · exact hp
  · intro g t p out hg _ _ _ hp
    have hlt := hg.2
    refine ⟨by simp [Event.isTransmit]; omega, by simp [Event.isLookup]; omega, ?_⟩
    simp only [Run.packets, List.map_cons, List.map_nil, List.cons_append, List.nil_append,
      List.mem_cons, List.not_mem_nil, or_false, Event.packet]
    rintro q (rfl | rfl | rfl)
    · exact hp
    · exact hp
    · exact hp
  · intro g t p out rest hg _ _ _ ih hp
    have hlt := hg.2
    have hp2 : ((p.FailedRouteProviders ++ [out.Route]).length : Int) ≤
        inp.TransmitPacketMaxAttempts := by
      simp only [List.length_append, List.length_singleton]; push_cast; omega
    obtain ⟨h1, h2, h3⟩ := ih hp2
    simp only [List.length_append, List.length_singleton] at h1 h2
    push_cast at h1 h2
    refine ⟨by simp [Event.isTransmit, List.countP_cons]; omega,
      by simp [Event.isLookup, List.countP_cons]; omega, ?_⟩
    rw [packets_pass]
    simp only [List.mem_cons, Event.packet]
    rintro q (rfl | rfl | hq)
    · exact hp
    · exact hp
    · exact h3 q hq

/-- C9 (the attempt budget is respected). From a packet with no failed
provider and with `TransmitPacketMaxAttempts ≥ 0`, for every behaviour of the
activities: the run is finite (`DataRoutingWorkflow` is a total function and
makes at most `TransmitPacketMaxAttempts` lookups), it calls `TransmitActivity`
at most `TransmitPacketMaxAttempts` times, and `len(FailedRouteProviders)` is at
most `TransmitPacketMaxAttempts` in every packet of the run, the returned one
included. -/
theorem attempt_budget_respected (act : Activities) (inp : DataRoutingIn)
    (hf : inp.Packet.FailedRouteProviders = [])
    (hmax : 0 ≤ inp.TransmitPacketMaxAttempts) :
    (((DataRoutingWorkflow act inp).trace.countP Event.isTransmit : Nat) : Int) ≤
      inp.TransmitPacketMaxAttempts ∧
    (((DataRoutingWorkflow act inp).trace.countP Event.isLookup : Nat) : Int) ≤
      inp.TransmitPacketMaxAttempts ∧
    (∀ q ∈ (DataRoutingWorkflow act inp).packets,
      (q.FailedRouteProviders.length : Int) ≤ inp.TransmitPacketMaxAttempts) ∧
    ((DataRoutingWorkflow act inp).out.Packet.FailedRouteProviders.length : Int) ≤
      inp.TransmitPacketMaxAttempts := by
  have h := workflowLoop_budget act inp 0 0 inp.Packet (by rw [hf]; exact hmax)
  rw [hf] at h
  simp only [List.length_nil, Nat.cast_zero, add_zero] at h
  refine ⟨h.1, h.2.1, h.2.2, h.2.2 _ ?_⟩
  simp [Run.packets, DataRoutingWorkflow]

/-- Witness of C9: the submitted packet with every transmission timing out. -/
theorem attempt_budget_respected_witness :
    submitIn.Packet.FailedRouteProviders = [] ∧
    (0 : Int) ≤ submitIn.TransmitPacketMaxAttempts ∧
    (((DataRoutingWorkflow (timeoutActivities PossibleRouteProviders) submitIn).trace.countP
      Event.isTransmit : Nat) : Int) ≤ submitIn.TransmitPacketMaxAttempts :=
  ⟨rfl, by decide,
   (attempt_budget_respected (timeoutActivities PossibleRouteProviders) submitIn rfl
    (by decide)).1⟩

theorem getRouteActivity_route (roll chance : Int) (possible : List String) (arg : GetRouteIn)
    (out : GetRouteOut) (h : GetRouteActivity roll chance possible arg = .ok out)
    (he : out.Empty = false) : out.Route ∉ arg.Packet.FailedRouteProviders := by
  unfold GetRouteActivity GetRoute at h
  by_cases hroll : roll < chance
  · simp [hroll] at h
  · simp only [hroll, if_false, Except.ok.injEq] at h
    subst h
    exact (triedMap_false _ _).mp (scanRoutes_route _ _ he).1

theorem workflowLoop_noRepeat (act : Activities) (inp : DataRoutingIn) (chance : Int)
    (possible : List String)
    (hget : ∀ i arg out, act.GetRouteActivity i arg = .ok out →
      ∃ roll, GetRouteActivity roll chance possible arg = .ok out)
    (g t : Nat) (p : Packet) (hp : p.NoRepeat) :
    ∀ q ∈ (workflowLoop act inp g t p).packets, q.NoRepeat := by
  revert hp
  refine workflowLoop_cases act inp
    (fun _ _ p run => p.NoRepeat → ∀ q ∈ run.packets, q.NoRepeat) ?_ ?_ ?_ ?_ ?_ g t p
  · intro g t p _ hp
    simp only [Run.packets, List.map_nil, List.nil_append, List.mem_singleton]
    rintro q rfl
    exact hp
  · intro g t p e _ _ hp
    simp only [Run.packets, List.map_cons, List.map_nil, List.cons_append, List.nil_append,
      List.mem_cons, List.not_mem_nil, or_false, Event.packet]
    rintro q (rfl | rfl)
    · exact hp
    · exact ⟨List.nodup_nil, fun h => absurd rfl h⟩
  · intro g t p out _ _ _ hp
    simp only [Run.packets, List.map_cons, List.map_nil, List.cons_append, List.nil_append,
      List.mem_cons, List.not_mem_nil, or_false, Event.packet]
    rintro q (rfl | rfl)
    · exact hp
    · exact hp
  · intro g t p out _ hr he _ hp
    obtain ⟨roll, hroll⟩ := hget g _ out hr
    have hnew : out.Route ∉ p.FailedRouteProviders :=
      getRouteActivity_route roll chance possible _ out hroll he
    simp only [Run.packets, List.map_cons, List.map_nil, List.cons_append, List.nil_append,
      List.mem_cons, List.not_mem_nil, or_false, Event.packet]
    rintro q (rfl | rfl | rfl)
    · exact hp
    · exact ⟨hp.1, fun _ => hnew⟩
    · exact ⟨hp.1, fun _ => hnew⟩
  · intro g t p out rest _ hr he _ ih hp
    obtain ⟨roll, hroll⟩ := hget g _ out hr
    have hnew : out.Route ∉ p.FailedRouteProviders :=
      getRouteActivity_route roll chance possible _ out hroll he
    have hp2 : Packet.NoRepeat
        { p with FailedRouteProviders := p.FailedRouteProviders ++ [out.Route],
                 CurrentRouteProvider := "" } := by
      refine ⟨?_, fun h => absurd rfl h⟩
      show (p.FailedRouteProviders ++ [out.Route]).Nodup
      rw [List.nodup_append]
      refine ⟨hp.1, List.nodup_singleton _, ?_⟩
      intro x hx hx2
      rw [List.mem_singleton] at hx2
      subst hx2
      exact hnew hx
    rw [packets_pass]
    simp only [List.mem_cons, Event.packet]
    rintro q (rfl | rfl | hq)
    · exact hp
    · exact ⟨hp.1, fun _ => hnew⟩
    · exact ih hp2 q hq

/-- C8 (no provider fails twice). From a packet with no failed provider, when
every successful lookup returns what `GetRouteActivity` (that is, `GetRoute` on
the packet's `FailedRouteProviders` of that moment) computes over the configured
providers `possible`, whichever lookups fail and whatever the transmissions do:
no provider appears twice in the `FailedRouteProviders` of the returned packet,
and in every packet of the run (at each activity call and at the return) no
provider is listed twice and a non-empty `CurrentRouteProvider` is not a member
of `FailedRouteProviders`. -/
theorem no_provider_fails_twice (act : Activities) (inp : DataRoutingIn) (chance : Int)
    (possible : List String)
    (hf : inp.Packet.FailedRouteProviders = [])
    (hget : ∀ i arg out, act.GetRouteActivity i arg = .ok out →
      ∃ roll, GetRouteActivity roll chance possible arg = .ok out) :
    (DataRoutingWorkflow act inp).out.Packet.FailedRouteProviders.Nodup ∧
    ∀ q ∈ (DataRoutingWorkflow act inp).packets,
      q.FailedRouteProviders.Nodup ∧
      (q.CurrentRouteProvider ≠ "" → q.CurrentRouteProvider ∉ q.FailedRouteProviders) := by
  have h0 : inp.Packet.NoRepeat := by
    unfold Packet.NoRepeat
    rw [hf]
    exact ⟨List.nodup_nil, fun _ => List.not_mem_nil _⟩
  have h := workflowLoop_noRepeat act inp chance possible hget 0 0 inp.Packet h0
  refine ⟨(h _ ?_).1, h⟩
  simp [Run.packets, DataRoutingWorkflow]

/-- Witness of C8: the submitted packet routed by `GetRoute` over the five
configured providers, every transmission timing out. -/
theorem no_provider_fails_twice_witness :
    submitIn.Packet.FailedRouteProviders = [] ∧
    (DataRoutingWorkflow (timeoutActivities PossibleRouteProviders)
      submitIn).out.Packet.FailedRouteProviders.Nodup :=
  ⟨rfl,
   (no_provider_fails_twice (timeoutActivities PossibleRouteProviders) submitIn 10
    PossibleRouteProviders rfl (fun _ _ _ h => ⟨50, h⟩)).1⟩

/-! ## The callback registry -/

theorem processScan_entries (decode : String → List UInt8)
    (complete : Nat → List UInt8 → TransmitOut → Option String) (now : Int) (i c : Nat)
    (l : List (Int × String)) :
    (processScan decode complete (fun _ => now) i c l).1.map (fun x => (x.due, x.token)) =
      l.filter (fun e => decide (e.1 < now)) := by
  induction l generalizing i c with
  | nil => rfl
  | cons e rest ih =>
    obtain ⟨t, token⟩ := e
    by_cases h : t < now
    · simp [processScan, h, ih]
    · simp [processScan, h, ih]

theorem processScan_toDelete (decode : String → List UInt8)
    (complete : Nat → List UInt8 → TransmitOut → Option String) (now : Int) (i c : Nat)
    (l : List (Int × String)) :
    (processScan decode complete (fun _ => now) i c l).2 =
      (l.filter (fun e => decide (e.1 < now))).map Prod.fst := by
  induction l generalizing i c with
  | nil => rfl
  | cons e rest ih =>
    obtain ⟨t, token⟩ := e
    by_cases h : t < now
    · simp [processScan, h, ih]
    · simp [processScan, h, ih]

theorem processScan_calls (decode : String → List UInt8)
    (complete : Nat → List UInt8 → TransmitOut → Option String) (clock : Nat → Int) (i c : Nat)
    (l : List (Int × String)) :
    ∀ x ∈ (processScan decode complete clock i c l).1,
      x.taskToken = decode x.token ∧ x.result = { Delivered := true } := by
  induction l generalizing i c with
  | nil => simp [processScan]
  | cons e rest ih =>
    obtain ⟨t, token⟩ := e
    by_cases h : t < clock i
    · simp only [processScan, h, if_true, List.mem_cons]
      rintro x (rfl | hx)
      · exact ⟨rfl, rfl⟩
      · exact ih _ _ x hx
    · simp only [processScan, h, if_false]
      exact ih _ _

theorem foldl_mapDelete (ts : List Int) (m : List (Int × String)) :
    ts.foldl mapDelete m = m.filter (fun e => decide (e.1 ∉ ts)) := by
  induction ts generalizing m with
  | nil => simp
  | cons t rest ih =>
    rw [List.foldl_cons, ih, mapDelete, List.filter_filter]
    apply List.filter_congr
    intro e _
    simp only [List.mem_cons, not_or, Bool.decide_and, Bool.and_comm]

theorem process_callbacks (decode : String → List UInt8)
    (complete : Nat → List UInt8 → TransmitOut → Option String) (now : Int)
    (r : TransmitService) :
    (r.process decode complete (fun _ => now)).1.callbacks =
      r.callbacks.filter (fun e => decide (¬ e.1 < now)) := by
  simp only [TransmitService.process, processScan_toDelete, foldl_mapDelete]
  apply List.filter_congr
  intro e he
  rw [decide_eq_decide]
  constructor
  · intro h hlt
    exact h (List.mem_map.mpr ⟨e, List.mem_filter.mpr ⟨he, by simpa using hlt⟩, rfl⟩)
  · intro h hmem
    obtain ⟨e2, he2, heq⟩ := List.mem_map.mp hmem
    have := (List.mem_filter.mp he2).2
    rw [heq] at this
    exact h (by simpa using this)

/-- C10 (one scan resolves exactly the due entries). For every registry
content, every scan instant `now` and every behaviour of `CompleteActivity`:
`process` makes one `CompleteActivity` call per entry whose due time is strictly
before `now` and none for another entry, each with the entry's decoded token and
`TransmitOut{Delivered: true}`; afterwards the registry holds exactly the
entries whose due time is not before `now`, unchanged, whatever the calls
returned; and a later scan of that registry (visited in any order, at any
instant) only resolves entries of the first registry that were not due at
`now`, so none of the removed ones. -/
theorem process_resolves_due (decode : String → List UInt8)
    (complete : Nat → List UInt8 → TransmitOut → Option String) (now : Int)
    (r : TransmitService) :
    (r.process decode complete (fun _ => now)).2.map (fun x => (x.due, x.token)) =
      r.callbacks.filter (fun e => decide (e.1 < now)) ∧
    (∀ x ∈ (r.process decode complete (fun _ => now)).2,
      x.taskToken = decode x.token ∧ x.result = { Delivered := true }) ∧
    (r.process decode complete (fun _ => now)).1.callbacks =
      r.callbacks.filter (fun e => decide (¬ e.1 < now)) ∧
    (∀ (complete2 : Nat → List UInt8 → TransmitOut → Option String) (now2 : Int)
        (r2 : TransmitService),
      r2.callbacks.Perm (r.process decode complete (fun _ => now)).1.callbacks →
      ∀ x ∈ (r2.process decode complete2 (fun _ => now2)).2,
        (x.due, x.token) ∈ r.callbacks ∧ ¬ x.due < now) := by
  refine ⟨processScan_entries decode complete now 0 0 r.callbacks,
    processScan_calls decode complete _ 0 0 r.callbacks,
    process_callbacks decode complete now r, ?_⟩
  intro complete2 now2 r2 hperm x hx
  have hmem : (x.due, x.token) ∈ r2.callbacks.filter (fun e => decide (e.1 < now2)) := by
    rw [← processScan_entries decode complete2 now2 0 0 r2.callbacks]
    exact List.mem_map.mpr ⟨x, hx, rfl⟩
  have h2 : (x.due, x.token) ∈ r.callbacks.filter (fun e => decide (¬ e.1 < now)) := by
    rw [← process_callbacks decode complete now r]
    exact hperm.subset (List.mem_filter.mp hmem).1
  obtain ⟨h3, h4⟩ := List.mem_filter.mp h2
  exact ⟨h3, by simpa using h4⟩

/-! ## Registering a callback -/

theorem mem_mapSet (m : List (Int × String)) (t : Int) (token : String) (e : Int × String) :
    e ∈ mapSet m t token ↔ (e ∈ m ∧ e.1 ≠ t) ∨ e = (t, token) := by
  simp [mapSet, mapDelete, List.mem_filter]

theorem serveHTTP_honoured (chance callbackRoll delayRoll now : Int) (request : Request)
    (form : String → String) (r : TransmitService)
    (hroll : callbackRoll < chance) (hform : request.ParseForm = .ok form) :
    r.ServeHTTP chance callbackRoll delayRoll now request =
      ({ callbacks := mapSet r.callbacks (now + delayRoll * Second) (form ParamTaskToken) },
        StatusOK) := by
  have hnot : ¬ callbackRoll ≥ chance := not_le.mpr hroll
  simp only [TransmitService.ServeHTTP, if_neg hnot, hform]

/-- C11, as stated, fails: from the empty registry, `tokenA` registered at
second `1` with a delay of `4` seconds and `tokenB` registered at second `2`
with a delay of `3` seconds are both honoured (status `200`) and both due at
second `5`; after the second registration `tokenA` is no longer pending, and a
scan at second `6` resolves `tokenB` only. -/
theorem registration_overwrites_same_due :
    (TransmitService.ServeHTTP 90 honouredRoll 4 (1 * Second) (tokenRequest "tokenA")
      { callbacks := [] }).2 = StatusOK ∧
    pendingTokens (TransmitService.ServeHTTP 90 honouredRoll 4 (1 * Second)
      (tokenRequest "tokenA") { callbacks := [] }).1.callbacks = ["tokenA"] ∧
    (TransmitService.ServeHTTP 90 honouredRoll 3 (2 * Second) (tokenRequest "tokenB")
      (TransmitService.ServeHTTP 90 honouredRoll 4 (1 * Second) (tokenRequest "tokenA")
        { callbacks := [] }).1).2 = StatusOK ∧
    "tokenA" ∉ pendingTokens twoRegistrations.callbacks ∧
    twoRegistrations.callbacks = [(5 * Second, "tokenB")] ∧
    (twoRegistrations.process (fun _ => []) (fun _ _ _ => none)
      (fun _ => 6 * Second)).2.map Completion.token = ["tokenB"] := by
  refine ⟨by decide, by decide, by decide, by decide, by decide, by decide⟩

/-- C11, amended. For every registry content and every honoured registration
(callback roll below the callback chance, parsable form): the request is
answered `200`; every entry pending before under a due time other than the new
token's due time is still pending after it, unchanged, and is resolved by any
later scan past its due time; the new token is pending under its due time and is
the only token under that due time (an entry that was pending under the same
due time is replaced); no other entry appears. -/
theorem registration_keeps_other_due_times (chance callbackRoll delayRoll now : Int)
    (request : Request) (form : String → String) (r : TransmitService)
    (hroll : callbackRoll < chance) (hform : request.ParseForm = .ok form) :
    (r.ServeHTTP chance callbackRoll delayRoll now request).2 = StatusOK ∧
    (∀ e ∈ r.callbacks, e.1 ≠ now + delayRoll * Second →
      e ∈ (r.ServeHTTP chance callbackRoll delayRoll now request).1.callbacks) ∧
    (now + delayRoll * Second, form ParamTaskToken) ∈
      (r.ServeHTTP chance callbackRoll delayRoll now request).1.callbacks ∧
    (∀ e ∈ (r.ServeHTTP chance callbackRoll delayRoll now request).1.callbacks,
      e.1 = now + delayRoll * Second → e.2 = form ParamTaskToken) ∧
    (∀ e ∈ (r.ServeHTTP chance callbackRoll delayRoll now request).1.callbacks,
      e ∈ r.callbacks ∨ e = (now + delayRoll * Second, form ParamTaskToken)) ∧
    (∀ (decode : String → List UInt8)
        (complete : Nat → List UInt8 → TransmitOut → Option String) (now2 : Int),
      ∀ e ∈ r.callbacks, e.1 ≠ now + delayRoll * Second → e.1 < now2 →
        e ∈ ((r.ServeHTTP chance callbackRoll delayRoll now request).1.process decode complete
          (fun _ => now2)).2.map (fun x => (x.due, x.token))) := by
  rw [serveHTTP_honoured chance callbackRoll delayRoll now request form r hroll hform]
  refine ⟨rfl, ?_, ?_, ?_, ?_, ?_⟩
  · intro e he hne
    exact (mem_mapSet _ _ _ e).mpr (Or.inl ⟨he, hne⟩)
  · exact (mem_mapSet _ _ _ _).mpr (Or.inr rfl)
  · intro e he hdue
    rcases (mem_mapSet _ _ _ e).mp he with ⟨_, hne⟩ | rfl
    · exact absurd hdue hne
    · rfl
  · intro e he
    rcases (mem_mapSet _ _ _ e).mp he with ⟨h, _⟩ | h
    · exact Or.inl h
    · exact Or.inr h
  · intro decode complete now2 e he hne hlt
    simp only [TransmitService.process]
    rw [processScan_entries decode complete now2 0 0]
    exact List.mem_filter.mpr ⟨(mem_mapSet _ _ _ e).mpr (Or.inl ⟨he, hne⟩), by simpa using hlt⟩

/-- Witness of C11, amended: `tokenA` is due at second `5`; registering `tokenB`
at second `2` with a delay of `4` seconds keeps it. -/
theorem registration_keeps_other_due_times_witness :
    honouredRoll < 90 ∧
    ((5 * Second, "tokenA") : Int × String) ∈
      (TransmitService.ServeHTTP 90 honouredRoll 4 (2 * Second) (tokenRequest "tokenB")
        { callbacks := [(5 * Second, "tokenA")] }).1.callbacks :=
  ⟨by decide,
   (registration_keeps_other_due_times 90 honouredRoll 4 (2 * Second) (tokenRequest "tokenB")
    (fun key => if key = ParamTaskToken then "tokenB" else "")
    { callbacks := [(5 * Second, "tokenA")] } (by decide) rfl).2.1
    (5 * Second, "tokenA") (List.mem_singleton.mpr rfl) (by decide)⟩

/-! ## Response codes -/

/-- C12, as stated, fails: a request whose form cannot be parsed and whose
callback roll (`95`) is not below the callback chance (`90`) is answered
`200 OK`, not `400 Bad Request`, by both services. -/
theorem unparsable_form_answered_ok :
    badRequest.ParseForm = .error "invalid URL escape" ∧
    (RoutingService.ServeHTTP 95 3 0 badRequest { callbacks := [] }).2 = StatusOK ∧
    (TransmitService.ServeHTTP 90 95 3 0 badRequest { callbacks := [] }).2 = StatusOK ∧
    StatusOK ≠ StatusBadRequest :=
  ⟨rfl, by decide, by decide, by decide⟩

/-- C12, amended. For every request to `ServeHTTP` (of `TransmitService`, for
any callback chance, and of `RoutingService`) and every outcome of the callback
roll: the response status is `400 Bad Request` exactly when the callback roll is
below the callback chance and the request form cannot be parsed, and `200 OK`
otherwise; a request answered with `400` leaves the registry unchanged. -/
theorem response_codes (chance callbackRoll delayRoll now : Int) (request : Request)
    (r : TransmitService) (rs : RoutingService) :
    ((r.ServeHTTP chance callbackRoll delayRoll now request).2 = StatusBadRequest ↔
      callbackRoll < chance ∧ ∃ e, request.ParseForm = .error e) ∧
    ((r.ServeHTTP chance callbackRoll delayRoll now request).2 = StatusOK ↔
      ¬ (callbackRoll < chance ∧ ∃ e, request.ParseForm = .error e)) ∧
    ((r.ServeHTTP chance callbackRoll delayRoll now request).2 = StatusBadRequest →
      (r.ServeHTTP chance callbackRoll delayRoll now request).1 = r) ∧
    ((rs.ServeHTTP callbackRoll delayRoll now request).2 = StatusBadRequest ↔
      callbackRoll < RoutingServiceCallbackChance ∧ ∃ e, request.ParseForm = .error e) ∧
    ((rs.ServeHTTP callbackRoll delayRoll now request).2 = StatusOK ↔
      ¬ (callbackRoll < RoutingServiceCallbackChance ∧ ∃ e, request.ParseForm = .error e)) ∧
    ((rs.ServeHTTP callbackRoll delayRoll now request).2 = StatusBadRequest →
      (rs.ServeHTTP callbackRoll delayRoll now request).1 = rs) := by
  have hcodes : StatusOK ≠ StatusBadRequest := by decide
  refine ⟨?_, ?_, ?_, ?_, ?_, ?_⟩
  all_goals
    simp only [TransmitService.ServeHTTP, RoutingService.ServeHTTP]
    split
    · next h => simp [hcodes, not_lt.mpr h]
    · next h =>
      have hlt := not_le.mp h
      cases hp : request.ParseForm with
      | error e => simp [hcodes.symm, hlt]
      | ok form => simp [hcodes, hlt]

end DataRouting
